import Mathlib

/-!
Shallow embedding of the go-breaker circuit breaker
(package circuit_breaker: state register, configuration, and the
counter-maintaining breaker engine, together with the linear-scan rate
functions of the simpler engine variant).

Modelling conventions:
* time instants and durations are integers counting nanoseconds
  (Go time.Time / time.Duration); the current clock value is passed
  explicitly wherever the Go code calls time.Now();
* float64 rates are modelled as exact rationals;
* the request list is a Lean list whose head is the oldest record
  (container/list Front); PushBack appends at the end;
* the mutexes only serialise operations, so the sequential behaviour of
  one operation at a time is modelled by a plain record.
-/

namespace GoBreaker

/-- The three lifecycle states (state register). -/
inductive State where
  | Closed
  | Open
  | HalfOpen
deriving DecidableEq, Repr

/-- The sliding window kind. -/
inductive SlidingWindowType where
  | COUNT_BASED
  | TIME_BASED
deriving DecidableEq, Repr

/-- Configuration. The Name field (used only in log and error texts) is
omitted. `slidingWindowTime` is the extra field declared by the alternate
Config of the documentation tree (src/unnamed/part_000); it is carried here
so that we can prove that no operation ever reads it. `slidingWindowSize`
doubles as a count (COUNT_BASED) and as a nanosecond duration obtained by
the Go conversion time.Duration(SlidingWindowSize) (TIME_BASED). -/
structure Config where
  failureRateThreshold : ℚ
  minimumNumberOfCalls : Nat
  permittedNumberOfCallsInHalfOpenState : Nat
  waitDurationInOpenState : Int
  slidingWindowSize : Nat
  slidingWindowTime : Int
  slidingWindowType : SlidingWindowType
  slowCallDurationThreshold : Int
  slowCallRateThreshold : ℚ
deriving DecidableEq, Repr

/-- One sliding window record (requestEntry). -/
structure requestEntry where
  failed : Bool
  slow : Bool
  executionTime : Int
deriving DecidableEq, Repr

/-- The breaker: configuration, state register content, half-open call
counter, timestamp of the last transition into Open (lastFailureTime),
the window, and the two incrementally maintained aggregates. -/
structure CircuitBreaker where
  config : Config
  state : State
  halfOpenCalls : Nat
  lastFailureTime : Int
  requests : List requestEntry
  failureCount : Int
  slowCallCount : Int
deriving DecidableEq, Repr

/-- NewCircuitBreaker: Closed state, empty window, zero counters and
zero-value timestamp. -/
def NewCircuitBreaker (config : Config) : CircuitBreaker :=
  { config := config
    state := State.Closed
    halfOpenCalls := 0
    lastFailureTime := 0
    requests := []
    failureCount := 0
    slowCallCount := 0 }

/-- removeFrontRequest: drop the oldest record and decrement the matching
aggregate (failed branch first, else slow branch, else neither). -/
def removeFrontRequest (cb : CircuitBreaker) : CircuitBreaker :=
  match cb.requests with
  | [] => cb
  | entry :: rest =>
    if entry.failed then
      { cb with requests := rest, failureCount := cb.failureCount - 1 }
    else if entry.slow then
      { cb with requests := rest, slowCallCount := cb.slowCallCount - 1 }
    else
      { cb with requests := rest }

theorem removeFrontRequest_requests (cb : CircuitBreaker) :
    (removeFrontRequest cb).requests = cb.requests.tail := by
  unfold removeFrontRequest
  rcases h : cb.requests with _ | ⟨entry, rest⟩
  · simp [h]
  · simp only [h]
    by_cases hf : entry.failed <;> by_cases hs : entry.slow <;> simp [hf, hs]

/-- One pass of the count-based pruning loop, with explicit fuel: each
iteration removes one record, so the current window length is always
enough fuel. The Go loop body only removes when Front is non-nil; with
SlidingWindowSize = 0 and an empty list the Go loop spins forever, so the
model additionally stops on the empty list (all theorems about this
function assume SlidingWindowSize is at least 1, where the two behaviours
coincide). -/
def enforceCountBasedWindowFuel : Nat → CircuitBreaker → CircuitBreaker
  | 0, cb => cb
  | Nat.succ fuel, cb =>
    if cb.config.slidingWindowSize ≤ cb.requests.length ∧ cb.requests ≠ [] then
      enforceCountBasedWindowFuel fuel (removeFrontRequest cb)
    else cb

/-- enforceCountBasedWindow: while the window length is at least
SlidingWindowSize, remove the oldest record. -/
def enforceCountBasedWindow (cb : CircuitBreaker) : CircuitBreaker :=
  enforceCountBasedWindowFuel cb.requests.length cb

/-- One pass of the time-based pruning loop, with explicit fuel: each
iteration removes one record, so the current window length is always
enough fuel. -/
def enforceTimeBasedWindowFuel (now : Int) : Nat → CircuitBreaker → CircuitBreaker
  | 0, cb => cb
  | Nat.succ fuel, cb =>
    match cb.requests with
    | [] => cb
    | entry :: _ =>
      if entry.executionTime < now - (cb.config.slidingWindowSize : Int) then
        enforceTimeBasedWindowFuel now fuel (removeFrontRequest cb)
      else cb

/-- enforceTimeBasedWindow: with expirationTime = now − SlidingWindowSize
(interpreted as nanoseconds), remove oldest records while their
executionTime is strictly before expirationTime, stopping at the first
record that is not. -/
def enforceTimeBasedWindow (now : Int) (cb : CircuitBreaker) : CircuitBreaker :=
  enforceTimeBasedWindowFuel now cb.requests.length cb

/-- cleanupOldRequests: dispatch on the window kind. -/
def cleanupOldRequests (now : Int) (cb : CircuitBreaker) : CircuitBreaker :=
  match cb.config.slidingWindowType with
  | SlidingWindowType.COUNT_BASED => enforceCountBasedWindow cb
  | SlidingWindowType.TIME_BASED => enforceTimeBasedWindow now cb

/-- addRequest: prune, append the new record stamped with the current
time, and bump the matching aggregate (failed first, else slow). -/
def addRequest (now : Int) (failed slow : Bool) (cb : CircuitBreaker) : CircuitBreaker :=
  let cb1 := cleanupOldRequests now cb
  let cb2 := { cb1 with
    requests := cb1.requests ++ [{ failed := failed, slow := slow, executionTime := now }] }
  if failed then { cb2 with failureCount := cb2.failureCount + 1 }
  else if slow then { cb2 with slowCallCount := cb2.slowCallCount + 1 }
  else cb2

/-- getFailureRate (counter engine): 0 on the empty window, otherwise
(failureCount / windowLength) * 100. -/
def getFailureRate (cb : CircuitBreaker) : ℚ :=
  if cb.requests.length = 0 then 0
  else ((cb.failureCount : ℚ) / (cb.requests.length : ℚ)) * 100

/-- getSlowCallRate (counter engine): 0 on the empty window, otherwise
(slowCallCount / windowLength) * 100. -/
def getSlowCallRate (cb : CircuitBreaker) : ℚ :=
  if cb.requests.length = 0 then 0
  else ((cb.slowCallCount : ℚ) / (cb.requests.length : ℚ)) * 100

/-- The linear-scan failure rate of the simpler engine variant: 0 on the
empty window, otherwise the scan counts records with failed = true. -/
def getFailureRateScan (cb : CircuitBreaker) : ℚ :=
  if cb.requests.length = 0 then 0
  else (((cb.requests.countP fun e => e.failed : Nat) : ℚ) / (cb.requests.length : ℚ)) * 100

/-- The linear-scan slow-call rate of the simpler engine variant: 0 on the
empty window, otherwise the scan counts records with slow = true and
failed = false. -/
def getSlowCallRateScan (cb : CircuitBreaker) : ℚ :=
  if cb.requests.length = 0 then 0
  else (((cb.requests.countP fun e => e.slow && !e.failed : Nat) : ℚ) / (cb.requests.length : ℚ)) * 100

/-- recordResult: insert the outcome, recompute the rates, then apply the
transition policy of the current state. `errNonNil` is err != nil. -/
def recordResult (now : Int) (errNonNil isSlow : Bool) (cb : CircuitBreaker) : CircuitBreaker :=
  let cb1 := addRequest now errNonNil isSlow cb
  let failureRate := getFailureRate cb1
  let slowCallRate := getSlowCallRate cb1
  match cb1.state with
  | State.Closed =>
    if cb1.config.minimumNumberOfCalls ≤ cb1.requests.length ∧
        (cb1.config.failureRateThreshold ≤ failureRate ∨
         cb1.config.slowCallRateThreshold ≤ slowCallRate) then
      { cb1 with state := State.Open, lastFailureTime := now }
    else cb1
  | State.Open =>
    if cb1.config.waitDurationInOpenState ≤ now - cb1.lastFailureTime then
      { cb1 with state := State.HalfOpen, halfOpenCalls := 0 }
    else cb1
  | State.HalfOpen =>
    if errNonNil || isSlow then
      { cb1 with state := State.Open, halfOpenCalls := 0, lastFailureTime := now }
    else
      if cb1.config.permittedNumberOfCallsInHalfOpenState ≤ cb1.halfOpenCalls then
        { cb1 with state := State.Closed, halfOpenCalls := 0 }
      else cb1

/-- The pre-admission decision of Execute. -/
inductive AdmitDecision where
  | admitted
  | rejectedOpen
  | rejectedHalfOpenLimit
deriving DecidableEq, Repr

/-- admitCall: the pre-admission section of Execute, run under the lock.
Step 1: Open with the cooling time elapsed moves to HalfOpen and resets
halfOpenCalls. Step 2: a still-Open breaker rejects. Step 3: HalfOpen
rejects once halfOpenCalls reaches the permitted number, otherwise counts
the call; Closed admits unconditionally. -/
def admitCall (now : Int) (cb : CircuitBreaker) : AdmitDecision × CircuitBreaker :=
  let cb1 :=
    if cb.state = State.Open ∧
        cb.config.waitDurationInOpenState ≤ now - cb.lastFailureTime then
      { cb with state := State.HalfOpen, halfOpenCalls := 0 }
    else cb
  if cb1.state = State.Open then
    (AdmitDecision.rejectedOpen, cb1)
  else if cb1.state = State.HalfOpen then
    if cb1.config.permittedNumberOfCallsInHalfOpenState ≤ cb1.halfOpenCalls then
      (AdmitDecision.rejectedHalfOpenLimit, cb1)
    else
      (AdmitDecision.admitted, { cb1 with halfOpenCalls := cb1.halfOpenCalls + 1 })
  else
    (AdmitDecision.admitted, cb1)

/-- What Execute returns: one of the two locally generated rejection
errors, or the opaque action result, propagated verbatim. -/
inductive ExecOutcome (ε : Type) where
  | rejectedOpen
  | rejectedHalfOpenLimit
  | completed (err : Option ε)
deriving DecidableEq, Repr

/-- Execute: admission decision, then the opaque action (modelled as a
thunk yielding its error, or none, together with its duration), slowness
check against SlowCallDurationThreshold, and recordResult at the clock
value reached when the action returns. `now` is the clock at admission. -/
def Execute {ε : Type} (now : Int) (action : Unit → Option ε × Int)
    (cb : CircuitBreaker) : ExecOutcome ε × CircuitBreaker :=
  match admitCall now cb with
  | (AdmitDecision.rejectedOpen, cb1) => (ExecOutcome.rejectedOpen, cb1)
  | (AdmitDecision.rejectedHalfOpenLimit, cb1) => (ExecOutcome.rejectedHalfOpenLimit, cb1)
  | (AdmitDecision.admitted, cb1) =>
    let r := action ()
    let err := r.1
    let duration := r.2
    let isSlow : Bool := decide (cb1.config.slowCallDurationThreshold ≤ duration)
    (ExecOutcome.completed err, recordResult (now + duration) err.isSome isSlow cb1)

/-- One observed call for whole-trace statements: clock value at admission,
whether the action fails, and its duration. -/
structure CallSpec where
  now : Int
  fails : Bool
  duration : Int
deriving DecidableEq, Repr

/-- Run one call of a trace through Execute, keeping the breaker. -/
def stepCall (cb : CircuitBreaker) (c : CallSpec) : CircuitBreaker :=
  (Execute c.now (fun _ => ((if c.fails then some () else none : Option Unit), c.duration)) cb).2

/-- Run a whole trace of calls from a freshly constructed breaker. -/
def runCalls (cfg : Config) (cs : List CallSpec) : CircuitBreaker :=
  cs.foldl stepCall (NewCircuitBreaker cfg)

/-- Number of window records with failed = true. -/
def countFailed (l : List requestEntry) : Nat :=
  l.countP fun e => e.failed

/-- Number of window records with slow = true and failed = false. -/
def countSlowNotFailed (l : List requestEntry) : Nat :=
  l.countP fun e => e.slow && !e.failed

/-- The aggregate-exactness invariant: both incremental counters agree
with a linear scan of the current window. -/
def countersExact (cb : CircuitBreaker) : Prop :=
  cb.failureCount = (countFailed cb.requests : Int) ∧
  cb.slowCallCount = (countSlowNotFailed cb.requests : Int)

theorem removeFrontRequest_fields (cb : CircuitBreaker) :
    (removeFrontRequest cb).config = cb.config ∧
    (removeFrontRequest cb).state = cb.state ∧
    (removeFrontRequest cb).halfOpenCalls = cb.halfOpenCalls ∧
    (removeFrontRequest cb).lastFailureTime = cb.lastFailureTime := by
  unfold removeFrontRequest
  rcases cb.requests with _ | ⟨e, r⟩
  · exact ⟨rfl, rfl, rfl, rfl⟩
  · by_cases hf : e.failed <;> by_cases hs : e.slow <;> simp [hf, hs]

theorem removeFrontRequest_countersExact (cb : CircuitBreaker) (h : countersExact cb) :
    countersExact (removeFrontRequest cb) := by
  obtain ⟨cfg, st, hoc, lft, reqs, fc, sc⟩ := cb
  obtain ⟨h1, h2⟩ := h
  simp only [countersExact, countFailed, countSlowNotFailed] at h1 h2 ⊢
  rcases reqs with _ | ⟨e, r⟩
  · exact ⟨h1, h2⟩
  · unfold removeFrontRequest
    by_cases hf : e.failed <;> by_cases hs : e.slow <;>
      simp [hf, hs, List.countP_cons] at h1 h2 ⊢ <;> omega

theorem enforceCountBasedWindowFuel_fields (fuel : Nat) (cb : CircuitBreaker) :
    (enforceCountBasedWindowFuel fuel cb).config = cb.config ∧
    (enforceCountBasedWindowFuel fuel cb).state = cb.state ∧
    (enforceCountBasedWindowFuel fuel cb).halfOpenCalls = cb.halfOpenCalls ∧
    (enforceCountBasedWindowFuel fuel cb).lastFailureTime = cb.lastFailureTime := by
  induction fuel generalizing cb with
  | zero => exact ⟨rfl, rfl, rfl, rfl⟩
  | succ fuel ih =>
    unfold enforceCountBasedWindowFuel
    split
    · obtain ⟨r1, r2, r3, r4⟩ := removeFrontRequest_fields cb
      obtain ⟨i1, i2, i3, i4⟩ := ih (removeFrontRequest cb)
      exact ⟨i1.trans r1, i2.trans r2, i3.trans r3, i4.trans r4⟩
    · exact ⟨rfl, rfl, rfl, rfl⟩

theorem enforceCountBasedWindow_fields (cb : CircuitBreaker) :
    (enforceCountBasedWindow cb).config = cb.config ∧
    (enforceCountBasedWindow cb).state = cb.state ∧
    (enforceCountBasedWindow cb).halfOpenCalls = cb.halfOpenCalls ∧
    (enforceCountBasedWindow cb).lastFailureTime = cb.lastFailureTime :=
  enforceCountBasedWindowFuel_fields cb.requests.length cb

theorem enforceCountBasedWindowFuel_countersExact (fuel : Nat) (cb : CircuitBreaker)
    (h : countersExact cb) : countersExact (enforceCountBasedWindowFuel fuel cb) := by
  induction fuel generalizing cb with
  | zero => exact h
  | succ fuel ih =>
    unfold enforceCountBasedWindowFuel
    split
    · exact ih (removeFrontRequest cb) (removeFrontRequest_countersExact cb h)
    · exact h

theorem enforceCountBasedWindow_countersExact (cb : CircuitBreaker) (h : countersExact cb) :
    countersExact (enforceCountBasedWindow cb) :=
  enforceCountBasedWindowFuel_countersExact cb.requests.length cb h

theorem tail_drop_window {α : Type} (l : List α) (size : Nat) (hne : l ≠ [])
    (hsz : size ≤ l.length) :
    l.tail.drop (l.tail.length + 1 - size) = l.drop (l.length + 1 - size) := by
  rcases l with _ | ⟨e, r⟩
  · simp at hne
  · simp only [List.length_cons] at hsz
    simp only [List.tail_cons, List.length_cons]
    have harith : r.length + 1 + 1 - size = (r.length + 1 - size) + 1 := by omega
    rw [harith, List.drop_succ_cons]

theorem enforceCountBasedWindowFuel_requests (fuel : Nat) (cb : CircuitBreaker)
    (h1 : 1 ≤ cb.config.slidingWindowSize) (hf : cb.requests.length ≤ fuel) :
    (enforceCountBasedWindowFuel fuel cb).requests =
      cb.requests.drop (cb.requests.length + 1 - cb.config.slidingWindowSize) := by
  induction fuel generalizing cb with
  | zero =>
    have h0 : cb.requests = [] := List.length_eq_zero.mp (Nat.le_zero.mp hf)
    show cb.requests = _
    rw [h0]
    simp
  | succ fuel ih =>
    unfold enforceCountBasedWindowFuel
    split
    · next hg =>
      have hcfg : (removeFrontRequest cb).config = cb.config := (removeFrontRequest_fields cb).1
      have hreq : (removeFrontRequest cb).requests = cb.requests.tail :=
        removeFrontRequest_requests cb
      have hpos : 0 < cb.requests.length := List.length_pos.mpr hg.2
      rw [ih (removeFrontRequest cb) (by rw [hcfg]; exact h1)
        (by rw [hreq]; simp only [List.length_tail]; omega), hcfg, hreq]
      exact tail_drop_window cb.requests cb.config.slidingWindowSize hg.2 hg.1
    · next hg =>
      by_cases hr : cb.requests = []
      · rw [hr]; simp
      · have hlt : cb.requests.length < cb.config.slidingWindowSize := by
          by_contra hle
          exact hg ⟨by omega, hr⟩
        have h0 : cb.requests.length + 1 - cb.config.slidingWindowSize = 0 := by omega
        rw [h0, List.drop_zero]

theorem enforceCountBasedWindow_requests (cb : CircuitBreaker)
    (h1 : 1 ≤ cb.config.slidingWindowSize) :
    (enforceCountBasedWindow cb).requests =
      cb.requests.drop (cb.requests.length + 1 - cb.config.slidingWindowSize) :=
  enforceCountBasedWindowFuel_requests cb.requests.length cb h1 le_rfl

theorem enforceCountBasedWindow_length (cb : CircuitBreaker)
    (h1 : 1 ≤ cb.config.slidingWindowSize) :
    (enforceCountBasedWindow cb).requests.length < cb.config.slidingWindowSize := by
  rw [enforceCountBasedWindow_requests cb h1, List.length_drop]
  omega

theorem enforceTimeBasedWindowFuel_step (now : Int) (fuel : Nat) (cb : CircuitBreaker)
    (entry : requestEntry) (tail : List requestEntry) (hr : cb.requests = entry :: tail) :
    enforceTimeBasedWindowFuel now (fuel + 1) cb =
      (if entry.executionTime < now - (cb.config.slidingWindowSize : Int) then
        enforceTimeBasedWindowFuel now fuel (removeFrontRequest cb)
      else cb) := by
  conv_lhs => unfold enforceTimeBasedWindowFuel
  rw [hr]

theorem enforceTimeBasedWindowFuel_fields (now : Int) (fuel : Nat) (cb : CircuitBreaker) :
    (enforceTimeBasedWindowFuel now fuel cb).config = cb.config ∧
    (enforceTimeBasedWindowFuel now fuel cb).state = cb.state ∧
    (enforceTimeBasedWindowFuel now fuel cb).halfOpenCalls = cb.halfOpenCalls ∧
    (enforceTimeBasedWindowFuel now fuel cb).lastFailureTime = cb.lastFailureTime := by
  induction fuel generalizing cb with
  | zero => exact ⟨rfl, rfl, rfl, rfl⟩
  | succ fuel ih =>
    rcases hr : cb.requests with _ | ⟨entry, tail⟩
    · unfold enforceTimeBasedWindowFuel
      rw [hr]
      exact ⟨rfl, rfl, rfl, rfl⟩
    · rw [enforceTimeBasedWindowFuel_step now fuel cb entry tail hr]
      by_cases hc : entry.executionTime < now - (cb.config.slidingWindowSize : Int)
      · rw [if_pos hc]
        obtain ⟨r1, r2, r3, r4⟩ := removeFrontRequest_fields cb
        obtain ⟨i1, i2, i3, i4⟩ := ih (removeFrontRequest cb)
        exact ⟨i1.trans r1, i2.trans r2, i3.trans r3, i4.trans r4⟩
      · rw [if_neg hc]
        exact ⟨rfl, rfl, rfl, rfl⟩

theorem enforceTimeBasedWindow_fields (now : Int) (cb : CircuitBreaker) :
    (enforceTimeBasedWindow now cb).config = cb.config ∧
    (enforceTimeBasedWindow now cb).state = cb.state ∧
    (enforceTimeBasedWindow now cb).halfOpenCalls = cb.halfOpenCalls ∧
    (enforceTimeBasedWindow now cb).lastFailureTime = cb.lastFailureTime :=
  enforceTimeBasedWindowFuel_fields now cb.requests.length cb

theorem enforceTimeBasedWindowFuel_countersExact (now : Int) (fuel : Nat)
    (cb : CircuitBreaker) (h : countersExact cb) :
    countersExact (enforceTimeBasedWindowFuel now fuel cb) := by
  induction fuel generalizing cb with
  | zero => exact h
  | succ fuel ih =>
    rcases hr : cb.requests with _ | ⟨entry, tail⟩
    · unfold enforceTimeBasedWindowFuel
      rw [hr]
      exact h
    · rw [enforceTimeBasedWindowFuel_step now fuel cb entry tail hr]
      by_cases hc : entry.executionTime < now - (cb.config.slidingWindowSize : Int)
      · rw [if_pos hc]
        exact ih (removeFrontRequest cb) (removeFrontRequest_countersExact cb h)
      · rw [if_neg hc]
        exact h

theorem enforceTimeBasedWindow_countersExact (now : Int) (cb : CircuitBreaker)
    (h : countersExact cb) : countersExact (enforceTimeBasedWindow now cb) :=
  enforceTimeBasedWindowFuel_countersExact now cb.requests.length cb h

theorem enforceTimeBasedWindowFuel_requests (now : Int) (fuel : Nat) (cb : CircuitBreaker)
    (hf : cb.requests.length ≤ fuel) :
    (enforceTimeBasedWindowFuel now fuel cb).requests =
      cb.requests.dropWhile
        (fun e => decide (e.executionTime < now - (cb.config.slidingWindowSize : Int))) := by
  induction fuel generalizing cb with
  | zero =>
    have h0 : cb.requests = [] := List.length_eq_zero.mp (Nat.le_zero.mp hf)
    show cb.requests = _
    rw [h0]
    simp
  | succ fuel ih =>
    rcases hr : cb.requests with _ | ⟨entry, tail⟩
    · unfold enforceTimeBasedWindowFuel
      rw [hr]
      simp [hr]
    · rw [enforceTimeBasedWindowFuel_step now fuel cb entry tail hr]
      by_cases hc : entry.executionTime < now - (cb.config.slidingWindowSize : Int)
      · rw [if_pos hc]
        have hcfg : (removeFrontRequest cb).config = cb.config := (removeFrontRequest_fields cb).1
        have hreq : (removeFrontRequest cb).requests = cb.requests.tail :=
          removeFrontRequest_requests cb
        have hlen : (removeFrontRequest cb).requests.length ≤ fuel := by
          rw [hreq, hr]
          have := hf
          rw [hr] at this
          simp at this ⊢
          omega
        rw [ih (removeFrontRequest cb) hlen, hcfg, hreq, hr]
        simp [List.dropWhile_cons, hc]
      · rw [if_neg hc]
        rw [hr]
        simp [List.dropWhile_cons, hc]

theorem enforceTimeBasedWindow_requests (now : Int) (cb : CircuitBreaker) :
    (enforceTimeBasedWindow now cb).requests =
      cb.requests.dropWhile
        (fun e => decide (e.executionTime < now - (cb.config.slidingWindowSize : Int))) :=
  enforceTimeBasedWindowFuel_requests now cb.requests.length cb le_rfl

theorem enforceTimeBasedWindow_age (now : Int) (cb : CircuitBreaker)
    (hs : cb.requests.Pairwise (fun a b => a.executionTime ≤ b.executionTime)) :
    ∀ e ∈ (enforceTimeBasedWindow now cb).requests,
      now - e.executionTime ≤ (cb.config.slidingWindowSize : Int) := by
  rw [enforceTimeBasedWindow_requests now cb]
  intro e he
  have hsuffix := List.dropWhile_suffix
    (l := cb.requests)
    (p := fun e => decide (e.executionTime < now - (cb.config.slidingWindowSize : Int)))
  rcases hd : cb.requests.dropWhile
      (fun e => decide (e.executionTime < now - (cb.config.slidingWindowSize : Int))) with
    _ | ⟨front, rest⟩
  · rw [hd] at he
    cases he
  · have hfront : ¬ front.executionTime < now - (cb.config.slidingWindowSize : Int) := by
      have := List.head?_dropWhile_not
        (p := fun e => decide (e.executionTime < now - (cb.config.slidingWindowSize : Int)))
        (l := cb.requests)
      rw [hd] at this
      simpa using this
    rw [hd] at he hsuffix
    have hsorted : (front :: rest).Pairwise (fun a b => a.executionTime ≤ b.executionTime) :=
      hs.sublist hsuffix.sublist
    rcases List.mem_cons.mp he with h1 | h2
    · subst h1
      omega
    · have := (List.pairwise_cons.mp hsorted).1 e h2
      omega

theorem cleanupOldRequests_fields (now : Int) (cb : CircuitBreaker) :
    (cleanupOldRequests now cb).config = cb.config ∧
    (cleanupOldRequests now cb).state = cb.state ∧
    (cleanupOldRequests now cb).halfOpenCalls = cb.halfOpenCalls ∧
    (cleanupOldRequests now cb).lastFailureTime = cb.lastFailureTime := by
  unfold cleanupOldRequests
  rcases h : cb.config.slidingWindowType
  · exact enforceCountBasedWindow_fields cb
  · exact enforceTimeBasedWindow_fields now cb

theorem cleanupOldRequests_countersExact (now : Int) (cb : CircuitBreaker)
    (h : countersExact cb) : countersExact (cleanupOldRequests now cb) := by
  unfold cleanupOldRequests
  rcases cb.config.slidingWindowType
  · exact enforceCountBasedWindow_countersExact cb h
  · exact enforceTimeBasedWindow_countersExact now cb h

theorem addRequest_fields (now : Int) (failed slow : Bool) (cb : CircuitBreaker) :
    (addRequest now failed slow cb).config = cb.config ∧
    (addRequest now failed slow cb).state = cb.state ∧
    (addRequest now failed slow cb).halfOpenCalls = cb.halfOpenCalls ∧
    (addRequest now failed slow cb).lastFailureTime = cb.lastFailureTime := by
  obtain ⟨c1, c2, c3, c4⟩ := cleanupOldRequests_fields now cb
  unfold addRequest
  by_cases hf : failed <;> by_cases hs : slow <;>
    simp [hf, hs, c1, c2, c3, c4]

theorem addRequest_requests (now : Int) (failed slow : Bool) (cb : CircuitBreaker) :
    (addRequest now failed slow cb).requests =
      (cleanupOldRequests now cb).requests ++
        [{ failed := failed, slow := slow, executionTime := now }] := by
  unfold addRequest
  by_cases hf : failed <;> by_cases hs : slow <;> simp [hf, hs]

theorem addRequest_countersExact (now : Int) (failed slow : Bool) (cb : CircuitBreaker)
    (h : countersExact cb) : countersExact (addRequest now failed slow cb) := by
  obtain ⟨h1, h2⟩ := cleanupOldRequests_countersExact now cb h
  unfold addRequest
  simp only [countersExact, countFailed, countSlowNotFailed] at h1 h2 ⊢
  by_cases hf : failed <;> by_cases hs : slow <;>
    simp [hf, hs, List.countP_append, h1, h2]

theorem addRequest_length (now : Int) (failed slow : Bool) (cb : CircuitBreaker)
    (ht : cb.config.slidingWindowType = SlidingWindowType.COUNT_BASED)
    (h1 : 1 ≤ cb.config.slidingWindowSize) :
    (addRequest now failed slow cb).requests.length ≤ cb.config.slidingWindowSize := by
  rw [addRequest_requests, List.length_append]
  unfold cleanupOldRequests
  rw [ht]
  have := enforceCountBasedWindow_length cb h1
  simp only [List.length_singleton]
  omega

theorem recordResult_of_closed (now : Int) (e s : Bool) (cb : CircuitBreaker)
    (h : cb.state = State.Closed) :
    recordResult now e s cb =
      (if cb.config.minimumNumberOfCalls ≤ (addRequest now e s cb).requests.length ∧
          (cb.config.failureRateThreshold ≤ getFailureRate (addRequest now e s cb) ∨
           cb.config.slowCallRateThreshold ≤ getSlowCallRate (addRequest now e s cb)) then
        { addRequest now e s cb with state := State.Open, lastFailureTime := now }
      else addRequest now e s cb) := by
  have hst : (addRequest now e s cb).state = State.Closed := by
    rw [(addRequest_fields now e s cb).2.1, h]
  have hcfg : (addRequest now e s cb).config = cb.config := (addRequest_fields now e s cb).1
  simp only [recordResult, hst, hcfg]

theorem recordResult_of_halfOpen (now : Int) (e s : Bool) (cb : CircuitBreaker)
    (h : cb.state = State.HalfOpen) :
    recordResult now e s cb =
      (if e || s then
        { addRequest now e s cb with
          state := State.Open, halfOpenCalls := 0, lastFailureTime := now }
      else if cb.config.permittedNumberOfCallsInHalfOpenState ≤ cb.halfOpenCalls then
        { addRequest now e s cb with state := State.Closed, halfOpenCalls := 0 }
      else addRequest now e s cb) := by
  have hst : (addRequest now e s cb).state = State.HalfOpen := by
    rw [(addRequest_fields now e s cb).2.1, h]
  have hcfg : (addRequest now e s cb).config = cb.config := (addRequest_fields now e s cb).1
  have hhoc : (addRequest now e s cb).halfOpenCalls = cb.halfOpenCalls :=
    (addRequest_fields now e s cb).2.2.1
  simp only [recordResult, hst, hcfg, hhoc]

theorem recordResult_of_open (now : Int) (e s : Bool) (cb : CircuitBreaker)
    (h : cb.state = State.Open) :
    recordResult now e s cb =
      (if cb.config.waitDurationInOpenState ≤ now - cb.lastFailureTime then
        { addRequest now e s cb with state := State.HalfOpen, halfOpenCalls := 0 }
      else addRequest now e s cb) := by
  have hst : (addRequest now e s cb).state = State.Open := by
    rw [(addRequest_fields now e s cb).2.1, h]
  have hcfg : (addRequest now e s cb).config = cb.config := (addRequest_fields now e s cb).1
  have hlft : (addRequest now e s cb).lastFailureTime = cb.lastFailureTime :=
    (addRequest_fields now e s cb).2.2.2
  simp only [recordResult, hst, hcfg, hlft]

theorem recordResult_requests (now : Int) (e s : Bool) (cb : CircuitBreaker) :
    (recordResult now e s cb).requests = (addRequest now e s cb).requests := by
  rcases hst : cb.state
  · rw [recordResult_of_closed now e s cb hst]
    split <;> rfl
  · rw [recordResult_of_open now e s cb hst]
    split <;> rfl
  · rw [recordResult_of_halfOpen now e s cb hst]
    split
    · rfl
    · split <;> rfl

theorem recordResult_countersExact (now : Int) (e s : Bool) (cb : CircuitBreaker)
    (h : countersExact cb) : countersExact (recordResult now e s cb) := by
  have ha := addRequest_countersExact now e s cb h
  rcases hst : cb.state
  · rw [recordResult_of_closed now e s cb hst]
    split <;> exact ha
  · rw [recordResult_of_open now e s cb hst]
    split <;> exact ha
  · rw [recordResult_of_halfOpen now e s cb hst]
    split
    · exact ha
    · split <;> exact ha

theorem admitCall_closed (now : Int) (cb : CircuitBreaker) (h : cb.state = State.Closed) :
    admitCall now cb = (AdmitDecision.admitted, cb) := by
  unfold admitCall
  simp [h]

theorem admitCall_open_cooling (now : Int) (cb : CircuitBreaker) (h : cb.state = State.Open)
    (hw : now - cb.lastFailureTime < cb.config.waitDurationInOpenState) :
    admitCall now cb = (AdmitDecision.rejectedOpen, cb) := by
  have hc1 : ¬(cb.state = State.Open ∧
      cb.config.waitDurationInOpenState ≤ now - cb.lastFailureTime) := by
    rintro ⟨-, hle⟩
    omega
  unfold admitCall
  rw [if_neg hc1, if_pos h]

theorem admitCall_open_elapsed_pos (now : Int) (cb : CircuitBreaker)
    (h : cb.state = State.Open)
    (hw : cb.config.waitDurationInOpenState ≤ now - cb.lastFailureTime)
    (hp : 1 ≤ cb.config.permittedNumberOfCallsInHalfOpenState) :
    admitCall now cb =
      (AdmitDecision.admitted, { cb with state := State.HalfOpen, halfOpenCalls := 1 }) := by
  have h3 : ¬(cb.config.permittedNumberOfCallsInHalfOpenState ≤ 0) := by omega
  unfold admitCall
  rw [if_pos (And.intro h hw)]
  simp [h3]

theorem admitCall_open_elapsed_zero (now : Int) (cb : CircuitBreaker)
    (h : cb.state = State.Open)
    (hw : cb.config.waitDurationInOpenState ≤ now - cb.lastFailureTime)
    (hp : cb.config.permittedNumberOfCallsInHalfOpenState = 0) :
    admitCall now cb =
      (AdmitDecision.rejectedHalfOpenLimit,
       { cb with state := State.HalfOpen, halfOpenCalls := 0 }) := by
  unfold admitCall
  rw [if_pos (And.intro h hw)]
  simp [hp]

theorem admitCall_halfOpen_full (now : Int) (cb : CircuitBreaker)
    (h : cb.state = State.HalfOpen)
    (hq : cb.config.permittedNumberOfCallsInHalfOpenState ≤ cb.halfOpenCalls) :
    admitCall now cb = (AdmitDecision.rejectedHalfOpenLimit, cb) := by
  have hc1 : ¬(cb.state = State.Open ∧
      cb.config.waitDurationInOpenState ≤ now - cb.lastFailureTime) := by
    simp [h]
  unfold admitCall
  rw [if_neg hc1, if_neg (by simp [h]), if_pos h, if_pos hq]

theorem admitCall_halfOpen_quota (now : Int) (cb : CircuitBreaker)
    (h : cb.state = State.HalfOpen)
    (hq : cb.halfOpenCalls < cb.config.permittedNumberOfCallsInHalfOpenState) :
    admitCall now cb =
      (AdmitDecision.admitted, { cb with halfOpenCalls := cb.halfOpenCalls + 1 }) := by
  have hc1 : ¬(cb.state = State.Open ∧
      cb.config.waitDurationInOpenState ≤ now - cb.lastFailureTime) := by
    simp [h]
  unfold admitCall
  rw [if_neg hc1, if_neg (by simp [h]), if_pos h, if_neg (by omega)]

theorem admitCall_window_fields (now : Int) (cb : CircuitBreaker) :
    (admitCall now cb).2.config = cb.config ∧
    (admitCall now cb).2.requests = cb.requests ∧
    (admitCall now cb).2.failureCount = cb.failureCount ∧
    (admitCall now cb).2.slowCallCount = cb.slowCallCount ∧
    (admitCall now cb).2.lastFailureTime = cb.lastFailureTime := by
  rcases h : cb.state
  · rw [admitCall_closed now cb h]
    exact ⟨rfl, rfl, rfl, rfl, rfl⟩
  · by_cases hw : cb.config.waitDurationInOpenState ≤ now - cb.lastFailureTime
    · by_cases hp : 1 ≤ cb.config.permittedNumberOfCallsInHalfOpenState
      · rw [admitCall_open_elapsed_pos now cb h hw hp]
        exact ⟨rfl, rfl, rfl, rfl, rfl⟩
      · rw [admitCall_open_elapsed_zero now cb h hw (by omega)]
        exact ⟨rfl, rfl, rfl, rfl, rfl⟩
    · rw [admitCall_open_cooling now cb h (by omega)]
      exact ⟨rfl, rfl, rfl, rfl, rfl⟩
  · by_cases hq : cb.config.permittedNumberOfCallsInHalfOpenState ≤ cb.halfOpenCalls
    · rw [admitCall_halfOpen_full now cb h hq]
      exact ⟨rfl, rfl, rfl, rfl, rfl⟩
    · rw [admitCall_halfOpen_quota now cb h (by omega)]
      exact ⟨rfl, rfl, rfl, rfl, rfl⟩

theorem admitCall_countersExact (now : Int) (cb : CircuitBreaker)
    (h : countersExact cb) : countersExact (admitCall now cb).2 := by
  obtain ⟨_, hr, hf, hs, _⟩ := admitCall_window_fields now cb
  exact ⟨by rw [hf, hr]; exact h.1, by rw [hs, hr]; exact h.2⟩

theorem Execute_of_admitCall {ε : Type} (now : Int) (a : Unit → Option ε × Int)
    (cb : CircuitBreaker) :
    Execute now a cb =
      (match admitCall now cb with
      | (AdmitDecision.rejectedOpen, cb1) => (ExecOutcome.rejectedOpen, cb1)
      | (AdmitDecision.rejectedHalfOpenLimit, cb1) => (ExecOutcome.rejectedHalfOpenLimit, cb1)
      | (AdmitDecision.admitted, cb1) =>
        (ExecOutcome.completed (a ()).1,
         recordResult (now + (a ()).2) (a ()).1.isSome
           (decide (cb1.config.slowCallDurationThreshold ≤ (a ()).2)) cb1)) := rfl

theorem Execute_countersExact {ε : Type} (now : Int) (a : Unit → Option ε × Int)
    (cb : CircuitBreaker) (h : countersExact cb) :
    countersExact (Execute now a cb).2 := by
  rw [Execute_of_admitCall]
  rcases hac : admitCall now cb with ⟨d, cb1⟩
  have h1 : countersExact cb1 := by
    have := admitCall_countersExact now cb h
    rwa [hac] at this
  rcases d
  · exact recordResult_countersExact _ _ _ cb1 h1
  · exact h1
  · exact h1

theorem runCalls_countersExact (cfg : Config) (cs : List CallSpec) :
    countersExact (runCalls cfg cs) := by
  have base : countersExact (NewCircuitBreaker cfg) := ⟨rfl, rfl⟩
  unfold runCalls
  induction cs generalizing cfg with
  | nil => exact base
  | cons c cs ih =>
    have step : ∀ (cb : CircuitBreaker), countersExact cb →
        countersExact (cs.foldl stepCall cb) := by
      clear ih base
      induction cs with
      | nil => intro cb hcb; exact hcb
      | cons d ds ihd =>
        intro cb hcb
        exact ihd (stepCall cb d) (Execute_countersExact _ _ _ hcb)
    exact step _ (Execute_countersExact _ _ _ base)

/-- The configuration of the repository test TestHalfOpenToClosedTransition:
failure rate threshold 50, minimum 6 calls, 3 permitted half-open calls,
2s wait, count-based window of size 10, 200ms slow threshold. -/
def sampleConfig : Config :=
  { failureRateThreshold := 50
    minimumNumberOfCalls := 6
    permittedNumberOfCallsInHalfOpenState := 3
    waitDurationInOpenState := 2000000000
    slidingWindowSize := 10
    slidingWindowTime := 0
    slidingWindowType := SlidingWindowType.COUNT_BASED
    slowCallDurationThreshold := 200000000
    slowCallRateThreshold := 50 }

/-- A sample breaker sitting in the Open state since instant 0. -/
def sampleOpen : CircuitBreaker :=
  { NewCircuitBreaker sampleConfig with state := State.Open }

/-- A sample breaker in the Half-Open state with one probe already counted. -/
def sampleHalfOpen : CircuitBreaker :=
  { NewCircuitBreaker sampleConfig with state := State.HalfOpen, halfOpenCalls := 1 }

/-- C1: the pre-admission decision of Execute (admitCall, its locked
prelude) follows the four-step order: an Open breaker whose wait duration
has elapsed first moves to Half-Open with halfOpenCalls reset to 0, and the
call is then handled by the half-open rule (admitted as the first counted
probe, unless the permitted number is 0); a still-cooling Open breaker
rejects with the breaker-open error; a Half-Open breaker rejects with the
half-open-limit error once halfOpenCalls has reached
PermittedNumberOfCallsInHalfOpenState and otherwise increments
halfOpenCalls and admits; a Closed breaker admits unconditionally. -/
theorem execute_admission_four_step (now : Int) (cb : CircuitBreaker) :
    (cb.state = State.Closed → admitCall now cb = (AdmitDecision.admitted, cb)) ∧
    (cb.state = State.Open →
      now - cb.lastFailureTime < cb.config.waitDurationInOpenState →
      admitCall now cb = (AdmitDecision.rejectedOpen, cb)) ∧
    (cb.state = State.Open →
      cb.config.waitDurationInOpenState ≤ now - cb.lastFailureTime →
      1 ≤ cb.config.permittedNumberOfCallsInHalfOpenState →
      admitCall now cb =
        (AdmitDecision.admitted, { cb with state := State.HalfOpen, halfOpenCalls := 1 })) ∧
    (cb.state = State.Open →
      cb.config.waitDurationInOpenState ≤ now - cb.lastFailureTime →
      cb.config.permittedNumberOfCallsInHalfOpenState = 0 →
      admitCall now cb =
        (AdmitDecision.rejectedHalfOpenLimit,
         { cb with state := State.HalfOpen, halfOpenCalls := 0 })) ∧
    (cb.state = State.HalfOpen →
      cb.config.permittedNumberOfCallsInHalfOpenState ≤ cb.halfOpenCalls →
      admitCall now cb = (AdmitDecision.rejectedHalfOpenLimit, cb)) ∧
    (cb.state = State.HalfOpen →
      cb.halfOpenCalls < cb.config.permittedNumberOfCallsInHalfOpenState →
      admitCall now cb =
        (AdmitDecision.admitted, { cb with halfOpenCalls := cb.halfOpenCalls + 1 })) :=
  ⟨admitCall_closed now cb,
   admitCall_open_cooling now cb,
   admitCall_open_elapsed_pos now cb,
   admitCall_open_elapsed_zero now cb,
   admitCall_halfOpen_full now cb,
   admitCall_halfOpen_quota now cb⟩

/-- Concrete instances of all six admission cases of C1. -/
theorem execute_admission_four_step_witness :
    (admitCall 0 (NewCircuitBreaker sampleConfig) =
      (AdmitDecision.admitted, NewCircuitBreaker sampleConfig)) ∧
    (admitCall 1 sampleOpen = (AdmitDecision.rejectedOpen, sampleOpen)) ∧
    (admitCall 2000000000 sampleOpen =
      (AdmitDecision.admitted,
       { sampleOpen with state := State.HalfOpen, halfOpenCalls := 1 })) ∧
    (admitCall 0 sampleHalfOpen =
      (AdmitDecision.admitted, { sampleHalfOpen with halfOpenCalls := 2 })) :=
  ⟨(execute_admission_four_step 0 (NewCircuitBreaker sampleConfig)).1 rfl,
   (execute_admission_four_step 1 sampleOpen).2.1 rfl (by decide),
   (execute_admission_four_step 2000000000 sampleOpen).2.2.1 rfl (by decide) (by decide),
   (execute_admission_four_step 0 sampleHalfOpen).2.2.2.2.2 rfl (by decide)⟩

/-- C2: after recording an outcome while Closed, the breaker is Open
exactly when the updated window length has reached MinimumNumberOfCalls
and the failure rate or the slow-call rate has reached its threshold; on
that transition lastFailureTime is stamped to now; in particular a window
below the minimum leaves the breaker Closed whatever the rates are. -/
theorem closed_to_open_iff (now : Int) (e s : Bool) (cb : CircuitBreaker)
    (h : cb.state = State.Closed) :
    ((recordResult now e s cb).state = State.Open ↔
      cb.config.minimumNumberOfCalls ≤ (addRequest now e s cb).requests.length ∧
        (cb.config.failureRateThreshold ≤ getFailureRate (addRequest now e s cb) ∨
         cb.config.slowCallRateThreshold ≤ getSlowCallRate (addRequest now e s cb))) ∧
    ((recordResult now e s cb).state = State.Open →
      (recordResult now e s cb).lastFailureTime = now) ∧
    ((addRequest now e s cb).requests.length < cb.config.minimumNumberOfCalls →
      (recordResult now e s cb).state = State.Closed) := by
  rw [recordResult_of_closed now e s cb h]
  by_cases hc : cb.config.minimumNumberOfCalls ≤ (addRequest now e s cb).requests.length ∧
      (cb.config.failureRateThreshold ≤ getFailureRate (addRequest now e s cb) ∨
       cb.config.slowCallRateThreshold ≤ getSlowCallRate (addRequest now e s cb))
  · rw [if_pos hc]
    exact ⟨⟨fun _ => hc, fun _ => rfl⟩, fun _ => rfl, fun hlen => absurd hc.1 (by omega)⟩
  · rw [if_neg hc]
    have hst : (addRequest now e s cb).state = State.Closed := by
      rw [(addRequest_fields now e s cb).2.1, h]
    rw [hst]
    simp [hc]

/-- A concrete instance of C2: one recorded failure on a fresh breaker
stays below the six-call minimum, so the state remains Closed. -/
theorem closed_to_open_iff_witness :
    (addRequest 0 true false (NewCircuitBreaker sampleConfig)).requests.length <
        (NewCircuitBreaker sampleConfig).config.minimumNumberOfCalls ∧
    (recordResult 0 true false (NewCircuitBreaker sampleConfig)).state = State.Closed :=
  ⟨by decide,
   (closed_to_open_iff 0 true false (NewCircuitBreaker sampleConfig) rfl).2.2 (by decide)⟩

/-- C3: after recording the outcome of a Half-Open call: a failed or slow
call moves the breaker to Open, stamps lastFailureTime and resets
halfOpenCalls, unconditionally; a clean call whose admission had brought
halfOpenCalls up to PermittedNumberOfCallsInHalfOpenState moves the
breaker to Closed and resets halfOpenCalls; a clean call below the quota
boundary changes nothing beyond the window insertion; the window is never
cleared — in every case the requests are exactly those produced by the
normal prune-and-append step. -/
theorem halfopen_record_transitions (now : Int) (e s : Bool) (cb : CircuitBreaker)
    (h : cb.state = State.HalfOpen) :
    ((e = true ∨ s = true) →
      recordResult now e s cb =
        { addRequest now e s cb with
          state := State.Open, halfOpenCalls := 0, lastFailureTime := now }) ∧
    (e = false → s = false →
      cb.config.permittedNumberOfCallsInHalfOpenState ≤ cb.halfOpenCalls →
      recordResult now e s cb =
        { addRequest now e s cb with state := State.Closed, halfOpenCalls := 0 }) ∧
    (e = false → s = false →
      cb.halfOpenCalls < cb.config.permittedNumberOfCallsInHalfOpenState →
      recordResult now e s cb = addRequest now e s cb) ∧
    (recordResult now e s cb).requests = (addRequest now e s cb).requests := by
  rw [recordResult_of_halfOpen now e s cb h]
  refine ⟨?_, ?_, ?_, ?_⟩
  · intro he
    rw [if_pos (by rcases he with he | he <;> simp [he])]
  · intro he hs hq
    rw [if_neg (by simp [he, hs]), if_pos hq]
  · intro he hs hq
    rw [if_neg (by simp [he, hs]), if_neg (by omega)]
  · split
    · rfl
    · split <;> rfl

/-- Concrete instances of C3: a failing probe flips the sample Half-Open
breaker to Open; a clean probe below the quota leaves everything to the
window step. -/
theorem halfopen_record_transitions_witness :
    (recordResult 5 true false sampleHalfOpen =
      { addRequest 5 true false sampleHalfOpen with
        state := State.Open, halfOpenCalls := 0, lastFailureTime := 5 }) ∧
    (recordResult 5 false false sampleHalfOpen = addRequest 5 false false sampleHalfOpen) :=
  ⟨(halfopen_record_transitions 5 true false sampleHalfOpen rfl).1 (Or.inl rfl),
   (halfopen_record_transitions 5 false false sampleHalfOpen rfl).2.2.1 rfl rfl (by decide)⟩

theorem recordResult_config (now : Int) (e s : Bool) (cb : CircuitBreaker) :
    (recordResult now e s cb).config = cb.config := by
  rcases hst : cb.state
  · rw [recordResult_of_closed now e s cb hst]
    split <;> exact (addRequest_fields now e s cb).1
  · rw [recordResult_of_open now e s cb hst]
    split <;> exact (addRequest_fields now e s cb).1
  · rw [recordResult_of_halfOpen now e s cb hst]
    split
    · exact (addRequest_fields now e s cb).1
    · split <;> exact (addRequest_fields now e s cb).1

theorem Execute_config {ε : Type} (now : Int) (a : Unit → Option ε × Int)
    (cb : CircuitBreaker) : (Execute now a cb).2.config = cb.config := by
  rw [Execute_of_admitCall]
  rcases hac : admitCall now cb with ⟨d, cb1⟩
  have hc1 : cb1.config = cb.config := by
    have := (admitCall_window_fields now cb).1
    rwa [hac] at this
  rcases d
  · simp only
    rw [recordResult_config, hc1]
  · exact hc1
  · exact hc1

theorem Execute_cases {ε : Type} (now : Int) (a : Unit → Option ε × Int)
    (cb : CircuitBreaker) :
    (Execute now a cb).2 = (admitCall now cb).2 ∨
    (Execute now a cb).2 =
      recordResult (now + (a ()).2) (a ()).1.isSome
        (decide ((admitCall now cb).2.config.slowCallDurationThreshold ≤ (a ()).2))
        (admitCall now cb).2 := by
  rw [Execute_of_admitCall]
  rcases hac : admitCall now cb with ⟨d, cb1⟩
  rcases d
  · right
    simp [hac]
  · left
    rfl
  · left
    rfl

theorem Execute_count_window {ε : Type} (now : Int) (a : Unit → Option ε × Int)
    (cb : CircuitBreaker)
    (ht : cb.config.slidingWindowType = SlidingWindowType.COUNT_BASED)
    (h1 : 1 ≤ cb.config.slidingWindowSize)
    (hlen : cb.requests.length ≤ cb.config.slidingWindowSize) :
    (Execute now a cb).2.requests.length ≤ cb.config.slidingWindowSize := by
  obtain ⟨hcfg1, hreq1, _, _, _⟩ := admitCall_window_fields now cb
  rcases Execute_cases now a cb with hE | hE
  · rw [hE, hreq1]
    exact hlen
  · rw [hE, recordResult_requests]
    have := addRequest_length (now + (a ()).2) (a ()).1.isSome
      (decide ((admitCall now cb).2.config.slowCallDurationThreshold ≤ (a ()).2))
      (admitCall now cb).2 (by rw [hcfg1]; exact ht) (by rw [hcfg1]; exact h1)
    simpa [hcfg1] using this

theorem runCalls_count_window (cfg : Config) (cs : List CallSpec)
    (ht : cfg.slidingWindowType = SlidingWindowType.COUNT_BASED)
    (h1 : 1 ≤ cfg.slidingWindowSize) :
    (runCalls cfg cs).requests.length ≤ cfg.slidingWindowSize := by
  suffices h : ∀ cb : CircuitBreaker, cb.config = cfg →
      cb.requests.length ≤ cfg.slidingWindowSize →
      (cs.foldl stepCall cb).config = cfg ∧
      (cs.foldl stepCall cb).requests.length ≤ cfg.slidingWindowSize by
    exact (h (NewCircuitBreaker cfg) rfl (by simp [NewCircuitBreaker])).2
  induction cs with
  | nil => exact fun cb hc hl => ⟨hc, hl⟩
  | cons c cs ih =>
    intro cb hcfg hlen
    have hstepc : (stepCall cb c).config = cfg := by
      rw [stepCall, Execute_config, hcfg]
    apply ih (stepCall cb c) hstepc
    have := Execute_count_window c.now
      (fun _ => ((if c.fails then some () else none : Option Unit), c.duration)) cb
      (by rw [hcfg]; exact ht) (by rw [hcfg]; exact h1) (by rw [hcfg]; exact hlen)
    rw [hcfg] at this
    exact this

/-- C4: the incrementally maintained aggregates are always exact: after
any sequence of Execute calls from a fresh breaker, failureCount equals
the number of window records with failed = true and slowCallCount equals
the number with slow = true and failed = false; and every front removal
decrements exactly the one matching aggregate. -/
theorem aggregates_always_exact :
    (∀ (cfg : Config) (cs : List CallSpec),
      (runCalls cfg cs).failureCount = (countFailed (runCalls cfg cs).requests : Int) ∧
      (runCalls cfg cs).slowCallCount =
        (countSlowNotFailed (runCalls cfg cs).requests : Int)) ∧
    (∀ (cb : CircuitBreaker) (entry : requestEntry) (rest : List requestEntry),
      cb.requests = entry :: rest →
      (removeFrontRequest cb).failureCount =
        cb.failureCount - (if entry.failed = true then 1 else 0) ∧
      (removeFrontRequest cb).slowCallCount =
        cb.slowCallCount - (if entry.slow = true ∧ entry.failed = false then 1 else 0)) := by
  constructor
  · exact fun cfg cs => runCalls_countersExact cfg cs
  · intro cb entry rest hr
    by_cases hf : entry.failed <;> by_cases hs : entry.slow <;>
      simp [removeFrontRequest, hr, hf, hs]

/-- A concrete instance of C4: removing the failed front record of a
one-record window decrements failureCount by one and leaves
slowCallCount alone. -/
theorem aggregates_always_exact_witness :
    (removeFrontRequest
        { NewCircuitBreaker sampleConfig with
          requests := [{ failed := true, slow := false, executionTime := 0 }],
          failureCount := 1 }).failureCount = 0 := by
  have h := aggregates_always_exact.2
    { NewCircuitBreaker sampleConfig with
      requests := [{ failed := true, slow := false, executionTime := 0 }],
      failureCount := 1 }
    { failed := true, slow := false, executionTime := 0 } [] rfl
  simpa using h.1

/-- C5: count-based pruning drops oldest records exactly while the window
length is at least SlidingWindowSize (leaving the window strictly below
the size), insertion appends the new record only after pruning, and
consequently, starting from a fresh breaker, no sequence of calls ever
drives the window length above the configured size. -/
theorem count_window_never_exceeds :
    (∀ cb : CircuitBreaker, 1 ≤ cb.config.slidingWindowSize →
      (enforceCountBasedWindow cb).requests =
        cb.requests.drop (cb.requests.length + 1 - cb.config.slidingWindowSize)) ∧
    (∀ (now : Int) (failed slow : Bool) (cb : CircuitBreaker),
      (addRequest now failed slow cb).requests =
        (cleanupOldRequests now cb).requests ++
          [{ failed := failed, slow := slow, executionTime := now }]) ∧
    (∀ (cfg : Config) (cs : List CallSpec),
      cfg.slidingWindowType = SlidingWindowType.COUNT_BASED →
      1 ≤ cfg.slidingWindowSize →
      (runCalls cfg cs).requests.length ≤ cfg.slidingWindowSize) :=
  ⟨fun cb h1 => enforceCountBasedWindow_requests cb h1,
   fun now failed slow cb => addRequest_requests now failed slow cb,
   fun cfg cs ht h1 => runCalls_count_window cfg cs ht h1⟩

/-- A concrete instance of C5: eleven failing calls against the
size-ten sample window leave at most ten records. -/
theorem count_window_never_exceeds_witness :
    (runCalls sampleConfig
        (List.replicate 11 { now := 0, fails := true, duration := 0 })).requests.length ≤
      sampleConfig.slidingWindowSize :=
  count_window_never_exceeds.2.2 sampleConfig
    (List.replicate 11 { now := 0, fails := true, duration := 0 }) rfl (by decide)

/-- A time-based breaker holding a single record whose timestamp sits
exactly on the pruning horizon now − SlidingWindowSize for now = 10. -/
def sampleTimeCb : CircuitBreaker :=
  { NewCircuitBreaker { sampleConfig with slidingWindowType := SlidingWindowType.TIME_BASED } with
    requests := [{ failed := false, slow := false, executionTime := 0 }] }

/-- C6 as stated is false: a record whose observed-at timestamp is at
(not strictly before) now − SlidingWindowSize is NOT removed, because the
code removes only while executionTime.Before(expirationTime), a strict
comparison. Here the single record sits exactly on the horizon
(executionTime 0 ≤ 10 − 10) and pruning at now = 10 retains it. -/
theorem time_window_boundary_counterexample :
    (({ failed := false, slow := false, executionTime := 0 } : requestEntry).executionTime ≤
      10 - (sampleTimeCb.config.slidingWindowSize : Int)) ∧
    sampleTimeCb.requests = [{ failed := false, slow := false, executionTime := 0 }] ∧
    (enforceTimeBasedWindow 10 sampleTimeCb).requests =
      [{ failed := false, slow := false, executionTime := 0 }] :=
  ⟨by decide, rfl, by decide⟩

/-- C6 amended: pruning removes oldest records while their observed-at
timestamp is STRICTLY before now − SlidingWindowSize, stopping at the
first record not strictly before the horizon; consequently, on a window
whose timestamps are in insertion (non-decreasing) order, no retained
record's age exceeds the configured duration at pruning time. -/
theorem time_window_prunes_strictly_before (now : Int) (cb : CircuitBreaker) :
    ((enforceTimeBasedWindow now cb).requests =
      cb.requests.dropWhile
        (fun e => decide (e.executionTime < now - (cb.config.slidingWindowSize : Int)))) ∧
    (cb.requests.Pairwise (fun a b => a.executionTime ≤ b.executionTime) →
      ∀ e ∈ (enforceTimeBasedWindow now cb).requests,
        now - e.executionTime ≤ (cb.config.slidingWindowSize : Int)) :=
  ⟨enforceTimeBasedWindow_requests now cb,
   fun hs => enforceTimeBasedWindow_age now cb hs⟩

/-- A concrete instance of C6 amended: at the horizon instant the sample
record is kept and its age equals (never exceeds) the window duration. -/
theorem time_window_prunes_strictly_before_witness :
    ((enforceTimeBasedWindow 10 sampleTimeCb).requests =
      sampleTimeCb.requests.dropWhile
        (fun e => decide (e.executionTime < 10 - (sampleTimeCb.config.slidingWindowSize : Int)))) ∧
    ∀ e ∈ (enforceTimeBasedWindow 10 sampleTimeCb).requests,
      (10 : Int) - e.executionTime ≤ (sampleTimeCb.config.slidingWindowSize : Int) :=
  ⟨(time_window_prunes_strictly_before 10 sampleTimeCb).1,
   (time_window_prunes_strictly_before 10 sampleTimeCb).2 (by simp [sampleTimeCb])⟩

/-- C7: the counter-based rates satisfy the spec formula — 0 on the empty
window, otherwise 100 × count / windowLength, where the slow count covers
only slow-and-not-failed records — and agree with the linear-scan rate
functions of the simpler engine variant; both rates are 0 on an empty
window, also immediately after pruning empties the window. -/
theorem rates_formula (cb : CircuitBreaker) (h : countersExact cb) :
    (getFailureRate cb =
      if cb.requests.length = 0 then 0
      else 100 * (countFailed cb.requests : ℚ) / (cb.requests.length : ℚ)) ∧
    (getSlowCallRate cb =
      if cb.requests.length = 0 then 0
      else 100 * (countSlowNotFailed cb.requests : ℚ) / (cb.requests.length : ℚ)) ∧
    getFailureRate cb = getFailureRateScan cb ∧
    getSlowCallRate cb = getSlowCallRateScan cb ∧
    (cb.requests = [] → getFailureRate cb = 0 ∧ getSlowCallRate cb = 0) ∧
    (∀ now : Int, (cleanupOldRequests now cb).requests = [] →
      getFailureRate (cleanupOldRequests now cb) = 0 ∧
      getSlowCallRate (cleanupOldRequests now cb) = 0) := by
  obtain ⟨h1, h2⟩ := h
  refine ⟨?_, ?_, ?_, ?_, ?_, ?_⟩
  · unfold getFailureRate
    by_cases hlen : cb.requests.length = 0
    · simp [hlen]
    · rw [if_neg hlen, if_neg hlen, h1]
      push_cast
      ring
  · unfold getSlowCallRate
    by_cases hlen : cb.requests.length = 0
    · simp [hlen]
    · rw [if_neg hlen, if_neg hlen, h2]
      push_cast
      ring
  · unfold getFailureRate getFailureRateScan
    by_cases hlen : cb.requests.length = 0
    · simp [hlen]
    · rw [if_neg hlen, if_neg hlen, h1]
      push_cast
      rfl
  · unfold getSlowCallRate getSlowCallRateScan
    by_cases hlen : cb.requests.length = 0
    · simp [hlen]
    · rw [if_neg hlen, if_neg hlen, h2]
      push_cast
      rfl
  · intro hnil
    constructor <;> simp [getFailureRate, getSlowCallRate, hnil]
  · intro now hnil
    constructor <;> simp [getFailureRate, getSlowCallRate, hnil]

/-- A concrete instance of C7: the fresh sample breaker has an empty
window and both rates are exactly 0. -/
theorem rates_formula_witness :
    getFailureRate (NewCircuitBreaker sampleConfig) = 0 ∧
    getSlowCallRate (NewCircuitBreaker sampleConfig) = 0 :=
  (rates_formula (NewCircuitBreaker sampleConfig) ⟨rfl, rfl⟩).2.2.2.2.1 rfl

/-- An opaque action that succeeds instantly. -/
def probeNone : Unit → Option Unit × Int := fun _ => (none, 0)

/-- An opaque action that fails instantly. -/
def probeFail : Unit → Option Unit × Int := fun _ => (some (), 0)

/-- C8: rejection is atomic and propagation exact: when Execute rejects, the
window, both aggregates and lastFailureTime are unchanged and the outcome
does not depend on the action at all (the action is not invoked); every
completed outcome carries exactly the error the action returned; and an
admitted call always completes with that verbatim error. -/
theorem execute_propagation {ε : Type} (now : Int) (a : Unit → Option ε × Int)
    (cb : CircuitBreaker) :
    (((Execute now a cb).1 = ExecOutcome.rejectedOpen ∨
      (Execute now a cb).1 = ExecOutcome.rejectedHalfOpenLimit) →
      (Execute now a cb).2.requests = cb.requests ∧
      (Execute now a cb).2.failureCount = cb.failureCount ∧
      (Execute now a cb).2.slowCallCount = cb.slowCallCount ∧
      (Execute now a cb).2.lastFailureTime = cb.lastFailureTime ∧
      (∀ b : Unit → Option ε × Int, Execute now b cb = Execute now a cb)) ∧
    (∀ r : Option ε, (Execute now a cb).1 = ExecOutcome.completed r → r = (a ()).1) ∧
    ((admitCall now cb).1 = AdmitDecision.admitted →
      (Execute now a cb).1 = ExecOutcome.completed (a ()).1) := by
  rcases hac : admitCall now cb with ⟨d, cb1⟩
  obtain ⟨f1, f2, f3, f4, f5⟩ := admitCall_window_fields now cb
  rw [hac] at f1 f2 f3 f4 f5
  rcases d
  · refine ⟨?_, ?_, ?_⟩
    · intro hr
      rcases hr with hr | hr <;> simp [Execute_of_admitCall, hac] at hr
    · intro r hr
      simp [Execute_of_admitCall, hac] at hr
      exact hr.symm
    · intro _
      simp [Execute_of_admitCall, hac]
  · refine ⟨?_, ?_, ?_⟩
    · intro _
      refine ⟨?_, ?_, ?_, ?_, ?_⟩
      · simp only [Execute_of_admitCall, hac]
        exact f2
      · simp only [Execute_of_admitCall, hac]
        exact f3
      · simp only [Execute_of_admitCall, hac]
        exact f4
      · simp only [Execute_of_admitCall, hac]
        exact f5
      · intro b
        simp [Execute_of_admitCall, hac]
    · intro r hr
      simp [Execute_of_admitCall, hac] at hr
    · intro hadm
      simp at hadm
  · refine ⟨?_, ?_, ?_⟩
    · intro _
      refine ⟨?_, ?_, ?_, ?_, ?_⟩
      · simp only [Execute_of_admitCall, hac]
        exact f2
      · simp only [Execute_of_admitCall, hac]
        exact f3
      · simp only [Execute_of_admitCall, hac]
        exact f4
      · simp only [Execute_of_admitCall, hac]
        exact f5
      · intro b
        simp [Execute_of_admitCall, hac]
    · intro r hr
      simp [Execute_of_admitCall, hac] at hr
    · intro hadm
      simp at hadm

/-- Concrete instances of C8: a rejected call on the cooling sample Open
breaker leaves the window untouched and gives the same result for a
different action; an admitted call on a fresh breaker completes with the
action error (none). -/
theorem execute_propagation_witness :
    ((Execute 1 probeNone sampleOpen).2.requests = sampleOpen.requests) ∧
    (Execute 1 probeFail sampleOpen = Execute 1 probeNone sampleOpen) ∧
    ((Execute 0 probeNone (NewCircuitBreaker sampleConfig)).1 =
      ExecOutcome.completed none) :=
  ⟨((execute_propagation 1 probeNone sampleOpen).1 (Or.inl (by decide))).1,
   ((execute_propagation 1 probeNone sampleOpen).1 (Or.inl (by decide))).2.2.2.2 probeFail,
   (execute_propagation 0 probeNone (NewCircuitBreaker sampleConfig)).2.2 (by decide)⟩

theorem enforceCountBasedWindowFuel_stop (fuel : Nat) (cb : CircuitBreaker)
    (h : ¬(cb.config.slidingWindowSize ≤ cb.requests.length ∧ cb.requests ≠ [])) :
    enforceCountBasedWindowFuel fuel cb = cb := by
  cases fuel
  · rfl
  · unfold enforceCountBasedWindowFuel
    rw [if_neg h]

theorem cleanupOldRequests_count_stop (now : Int) (cb : CircuitBreaker)
    (ht : cb.config.slidingWindowType = SlidingWindowType.COUNT_BASED)
    (hlen : cb.requests.length < cb.config.slidingWindowSize) :
    cleanupOldRequests now cb = cb := by
  unfold cleanupOldRequests
  rw [ht]
  exact enforceCountBasedWindowFuel_stop cb.requests.length cb (by rintro ⟨hge, -⟩; omega)

theorem addRequest_probe (now : Int) (cb : CircuitBreaker)
    (ht : cb.config.slidingWindowType = SlidingWindowType.COUNT_BASED)
    (hlen : cb.requests.length < cb.config.slidingWindowSize) :
    addRequest now false false cb =
      { cb with requests :=
          cb.requests ++ [{ failed := false, slow := false, executionTime := now }] } := by
  unfold addRequest
  rw [cleanupOldRequests_count_stop now cb ht hlen]
  rfl

/-- A failing instant call, as issued by the repository test. -/
def failSpec : CallSpec := { now := 0, fails := true, duration := 0 }

/-- The window record produced by one failing instant call at instant 0. -/
def failEntry : requestEntry := { failed := true, slow := false, executionTime := 0 }

/-- The breaker after five failing calls: still Closed, five records. -/
def fiveFailsState : CircuitBreaker :=
  { NewCircuitBreaker sampleConfig with
    requests := List.replicate 5 failEntry, failureCount := 5 }

/-- The breaker after six failing calls: Open since instant 0. -/
def sixFailsState : CircuitBreaker :=
  { NewCircuitBreaker sampleConfig with
    state := State.Open, requests := List.replicate 6 failEntry, failureCount := 6 }

/-- The window record of a clean probe at instant t. -/
def probeEntry (t : Int) : requestEntry :=
  { failed := false, slow := false, executionTime := t }

/-- The breaker after the first recovery probe at instant t: Half-Open,
one probe counted. -/
def probe1State (t : Int) : CircuitBreaker :=
  { sixFailsState with
    state := State.HalfOpen
    halfOpenCalls := 1
    requests := List.replicate 6 failEntry ++ [probeEntry t] }

/-- The breaker after the second recovery probe. -/
def probe2State (t u : Int) : CircuitBreaker :=
  { sixFailsState with
    state := State.HalfOpen
    halfOpenCalls := 2
    requests := List.replicate 6 failEntry ++ [probeEntry t, probeEntry u] }

/-- The breaker after the third recovery probe: Closed again, probe
counter reset, window not cleared. -/
def probe3State (t u v : Int) : CircuitBreaker :=
  { sixFailsState with
    state := State.Closed
    halfOpenCalls := 0
    requests := List.replicate 6 failEntry ++ [probeEntry t, probeEntry u, probeEntry v] }

theorem step6_opens : stepCall fiveFailsState failSpec = sixFailsState := by
  have hadd : addRequest 0 true false fiveFailsState =
      { NewCircuitBreaker sampleConfig with
        requests := List.replicate 6 failEntry, failureCount := 6 } := by decide
  have hrec : recordResult 0 true false fiveFailsState = sixFailsState := by
    rw [recordResult_of_closed 0 true false fiveFailsState rfl, hadd]
    rw [if_pos ⟨by decide,
      Or.inl (by norm_num [getFailureRate, fiveFailsState, NewCircuitBreaker, sampleConfig])⟩]
    decide
  have hdefeq : stepCall fiveFailsState failSpec = recordResult 0 true false fiveFailsState := rfl
  rw [hdefeq, hrec]

theorem step7_halfopens (t : Int) (h7 : 2000000000 ≤ t) :
    stepCall sixFailsState { now := t, fails := false, duration := 0 } = probe1State t := by
  have hdef : stepCall sixFailsState { now := t, fails := false, duration := 0 } =
      (Execute t (fun _ => ((none : Option Unit), 0)) sixFailsState).2 := rfl
  rw [hdef, Execute_of_admitCall,
    admitCall_open_elapsed_pos t sixFailsState rfl
      (by show (2000000000 : Int) ≤ t - 0; omega) (by decide)]
  show recordResult (t + 0) false false
      { sixFailsState with state := State.HalfOpen, halfOpenCalls := 1 } = probe1State t
  rw [recordResult_of_halfOpen (t + 0) false false _ rfl, if_neg (by simp),
    if_neg (by decide), addRequest_probe (t + 0) _ (by decide) (by decide)]
  simp only [add_zero]
  rfl

theorem step8_probes (t u : Int) :
    stepCall (probe1State t) { now := u, fails := false, duration := 0 } = probe2State t u := by
  have hdef : stepCall (probe1State t) { now := u, fails := false, duration := 0 } =
      (Execute u (fun _ => ((none : Option Unit), 0)) (probe1State t)).2 := rfl
  rw [hdef, Execute_of_admitCall,
    admitCall_halfOpen_quota u (probe1State t) rfl (by show (1 : Nat) < 3; decide)]
  show recordResult (u + 0) false false
      { probe1State t with halfOpenCalls := 1 + 1 } = probe2State t u
  rw [recordResult_of_halfOpen (u + 0) false false _ rfl, if_neg (by simp),
    if_neg (by show ¬((3 : Nat) ≤ 2); decide),
    addRequest_probe (u + 0) _ rfl (by show (7 : Nat) < 10; decide)]
  simp only [add_zero]
  rfl

theorem step9_closes (t u v : Int) :
    stepCall (probe2State t u) { now := v, fails := false, duration := 0 } =
      probe3State t u v := by
  have hdef : stepCall (probe2State t u) { now := v, fails := false, duration := 0 } =
      (Execute v (fun _ => ((none : Option Unit), 0)) (probe2State t u)).2 := rfl
  rw [hdef, Execute_of_admitCall,
    admitCall_halfOpen_quota v (probe2State t u) rfl (by show (2 : Nat) < 3; decide)]
  show recordResult (v + 0) false false
      { probe2State t u with halfOpenCalls := 2 + 1 } = probe3State t u v
  rw [recordResult_of_halfOpen (v + 0) false false _ rfl, if_neg (by simp),
    if_pos (by show (3 : Nat) ≤ 3; decide),
    addRequest_probe (v + 0) _ rfl (by show (8 : Nat) < 10; decide)]
  simp only [add_zero]
  rfl

/-- C9: with the test configuration (failure threshold 50, minimum 6
calls, count-based window 10, wait 2s, 3 permitted half-open calls), six
consecutive failing calls leave the breaker Open; once at least 2s have
elapsed, the next call flips it to Half-Open before admission and counts
as the first of the three probes; two further clean calls reach the
quota, after which the state is Closed and halfOpenCalls is 0. -/
theorem recovery_scenario (t7 t8 t9 : Int) (h7 : 2000000000 ≤ t7) :
    (runCalls sampleConfig
        [failSpec, failSpec, failSpec, failSpec, failSpec, failSpec]).state = State.Open ∧
    ((runCalls sampleConfig
        [failSpec, failSpec, failSpec, failSpec, failSpec, failSpec,
         { now := t7, fails := false, duration := 0 }]).state = State.HalfOpen ∧
     (runCalls sampleConfig
        [failSpec, failSpec, failSpec, failSpec, failSpec, failSpec,
         { now := t7, fails := false, duration := 0 }]).halfOpenCalls = 1) ∧
    ((runCalls sampleConfig
        [failSpec, failSpec, failSpec, failSpec, failSpec, failSpec,
         { now := t7, fails := false, duration := 0 },
         { now := t8, fails := false, duration := 0 },
         { now := t9, fails := false, duration := 0 }]).state = State.Closed ∧
     (runCalls sampleConfig
        [failSpec, failSpec, failSpec, failSpec, failSpec, failSpec,
         { now := t7, fails := false, duration := 0 },
         { now := t8, fails := false, duration := 0 },
         { now := t9, fails := false, duration := 0 }]).halfOpenCalls = 0) := by
  have h5 : runCalls sampleConfig [failSpec, failSpec, failSpec, failSpec, failSpec] =
      fiveFailsState := by decide
  have h6 : runCalls sampleConfig [failSpec, failSpec, failSpec, failSpec, failSpec, failSpec] =
      sixFailsState := by
    have hexp : runCalls sampleConfig
        [failSpec, failSpec, failSpec, failSpec, failSpec, failSpec] =
        stepCall (runCalls sampleConfig [failSpec, failSpec, failSpec, failSpec, failSpec])
          failSpec := by
      simp only [runCalls, List.foldl_cons, List.foldl_nil]
    rw [hexp, h5, step6_opens]
  have h7run : runCalls sampleConfig
      [failSpec, failSpec, failSpec, failSpec, failSpec, failSpec,
       { now := t7, fails := false, duration := 0 }] = probe1State t7 := by
    have hexp : runCalls sampleConfig
        [failSpec, failSpec, failSpec, failSpec, failSpec, failSpec,
         { now := t7, fails := false, duration := 0 }] =
        stepCall
          (runCalls sampleConfig [failSpec, failSpec, failSpec, failSpec, failSpec, failSpec])
          { now := t7, fails := false, duration := 0 } := by
      simp only [runCalls, List.foldl_cons, List.foldl_nil]
    rw [hexp, h6, step7_halfopens t7 h7]
  have h9run : runCalls sampleConfig
      [failSpec, failSpec, failSpec, failSpec, failSpec, failSpec,
       { now := t7, fails := false, duration := 0 },
       { now := t8, fails := false, duration := 0 },
       { now := t9, fails := false, duration := 0 }] = probe3State t7 t8 t9 := by
    have hexp : runCalls sampleConfig
        [failSpec, failSpec, failSpec, failSpec, failSpec, failSpec,
         { now := t7, fails := false, duration := 0 },
         { now := t8, fails := false, duration := 0 },
         { now := t9, fails := false, duration := 0 }] =
        stepCall
          (stepCall
            (runCalls sampleConfig
              [failSpec, failSpec, failSpec, failSpec, failSpec, failSpec,
               { now := t7, fails := false, duration := 0 }])
            { now := t8, fails := false, duration := 0 })
          { now := t9, fails := false, duration := 0 } := by
      simp only [runCalls, List.foldl_cons, List.foldl_nil]
    rw [hexp, h7run, step8_probes t7 t8, step9_closes t7 t8 t9]
  exact ⟨by rw [h6]; rfl,
    ⟨by rw [h7run]; rfl, by rw [h7run]; rfl⟩,
    ⟨by rw [h9run]; rfl, by rw [h9run]; rfl⟩⟩

/-- A concrete instance of C9 with the probes at 2s, 2s+1ns and 2s+2ns. -/
theorem recovery_scenario_witness :
    (runCalls sampleConfig
        [failSpec, failSpec, failSpec, failSpec, failSpec, failSpec]).state = State.Open ∧
    (runCalls sampleConfig
        [failSpec, failSpec, failSpec, failSpec, failSpec, failSpec,
         { now := 2000000000, fails := false, duration := 0 },
         { now := 2000000001, fails := false, duration := 0 },
         { now := 2000000002, fails := false, duration := 0 }]).state = State.Closed :=
  ⟨(recovery_scenario 2000000000 2000000001 2000000002 (by decide)).1,
   (recovery_scenario 2000000000 2000000001 2000000002 (by decide)).2.2.1⟩

/-- Overwrite the slidingWindowTime field, leaving everything else alone. -/
def setSlidingWindowTime (v : Int) (cb : CircuitBreaker) : CircuitBreaker :=
  { cb with config := { cb.config with slidingWindowTime := v } }

theorem setSWT_state (v : Int) (cb : CircuitBreaker) :
    (setSlidingWindowTime v cb).state = cb.state := rfl

theorem setSWT_requests (v : Int) (cb : CircuitBreaker) :
    (setSlidingWindowTime v cb).requests = cb.requests := rfl

theorem setSWT_halfOpenCalls (v : Int) (cb : CircuitBreaker) :
    (setSlidingWindowTime v cb).halfOpenCalls = cb.halfOpenCalls := rfl

theorem setSWT_lastFailureTime (v : Int) (cb : CircuitBreaker) :
    (setSlidingWindowTime v cb).lastFailureTime = cb.lastFailureTime := rfl

theorem setSWT_minimumNumberOfCalls (v : Int) (cb : CircuitBreaker) :
    (setSlidingWindowTime v cb).config.minimumNumberOfCalls =
      cb.config.minimumNumberOfCalls := rfl

theorem setSWT_failureRateThreshold (v : Int) (cb : CircuitBreaker) :
    (setSlidingWindowTime v cb).config.failureRateThreshold =
      cb.config.failureRateThreshold := rfl

theorem setSWT_slowCallRateThreshold (v : Int) (cb : CircuitBreaker) :
    (setSlidingWindowTime v cb).config.slowCallRateThreshold =
      cb.config.slowCallRateThreshold := rfl

theorem setSWT_waitDurationInOpenState (v : Int) (cb : CircuitBreaker) :
    (setSlidingWindowTime v cb).config.waitDurationInOpenState =
      cb.config.waitDurationInOpenState := rfl

theorem setSWT_permitted (v : Int) (cb : CircuitBreaker) :
    (setSlidingWindowTime v cb).config.permittedNumberOfCallsInHalfOpenState =
      cb.config.permittedNumberOfCallsInHalfOpenState := rfl

theorem setSWT_slowCallDurationThreshold (v : Int) (cb : CircuitBreaker) :
    (setSlidingWindowTime v cb).config.slowCallDurationThreshold =
      cb.config.slowCallDurationThreshold := rfl

theorem getFailureRate_swt (v : Int) (cb : CircuitBreaker) :
    getFailureRate (setSlidingWindowTime v cb) = getFailureRate cb := rfl

theorem getSlowCallRate_swt (v : Int) (cb : CircuitBreaker) :
    getSlowCallRate (setSlidingWindowTime v cb) = getSlowCallRate cb := rfl

theorem removeFrontRequest_swt (v : Int) (cb : CircuitBreaker) :
    removeFrontRequest (setSlidingWindowTime v cb) =
      setSlidingWindowTime v (removeFrontRequest cb) := by
  obtain ⟨cfg, st, hoc, lft, reqs, fc, sc⟩ := cb
  rcases reqs with _ | ⟨e, r⟩
  · rfl
  · unfold removeFrontRequest setSlidingWindowTime
    by_cases hf : e.failed <;> by_cases hs : e.slow <;> simp [hf, hs]

theorem enforceCountBasedWindowFuel_swt (fuel : Nat) (v : Int) (cb : CircuitBreaker) :
    enforceCountBasedWindowFuel fuel (setSlidingWindowTime v cb) =
      setSlidingWindowTime v (enforceCountBasedWindowFuel fuel cb) := by
  induction fuel generalizing cb with
  | zero => rfl
  | succ fuel ih =>
    unfold enforceCountBasedWindowFuel
    show (if cb.config.slidingWindowSize ≤ cb.requests.length ∧ cb.requests ≠ [] then
        enforceCountBasedWindowFuel fuel (removeFrontRequest (setSlidingWindowTime v cb))
      else setSlidingWindowTime v cb) = _
    by_cases hg : cb.config.slidingWindowSize ≤ cb.requests.length ∧ cb.requests ≠ []
    · rw [if_pos hg, if_pos hg, removeFrontRequest_swt, ih]
    · rw [if_neg hg, if_neg hg]

theorem enforceTimeBasedWindowFuel_swt (now : Int) (fuel : Nat) (v : Int)
    (cb : CircuitBreaker) :
    enforceTimeBasedWindowFuel now fuel (setSlidingWindowTime v cb) =
      setSlidingWindowTime v (enforceTimeBasedWindowFuel now fuel cb) := by
  induction fuel generalizing cb with
  | zero => rfl
  | succ fuel ih =>
    rcases hr : cb.requests with _ | ⟨entry, tail⟩
    · have hr2 : (setSlidingWindowTime v cb).requests = [] := by rw [setSWT_requests, hr]
      conv_lhs => unfold enforceTimeBasedWindowFuel
      rw [hr2]
      conv_rhs => unfold enforceTimeBasedWindowFuel
      rw [hr]
    · have hr2 : (setSlidingWindowTime v cb).requests = entry :: tail := by
        rw [setSWT_requests, hr]
      rw [enforceTimeBasedWindowFuel_step now fuel (setSlidingWindowTime v cb) entry tail hr2,
        enforceTimeBasedWindowFuel_step now fuel cb entry tail hr]
      show (if entry.executionTime < now - (cb.config.slidingWindowSize : Int) then
          enforceTimeBasedWindowFuel now fuel (removeFrontRequest (setSlidingWindowTime v cb))
        else setSlidingWindowTime v cb) = _
      by_cases hc : entry.executionTime < now - (cb.config.slidingWindowSize : Int)
      · rw [if_pos hc, if_pos hc, removeFrontRequest_swt, ih]
      · rw [if_neg hc, if_neg hc]

theorem cleanupOldRequests_swt (now : Int) (v : Int) (cb : CircuitBreaker) :
    cleanupOldRequests now (setSlidingWindowTime v cb) =
      setSlidingWindowTime v (cleanupOldRequests now cb) := by
  unfold cleanupOldRequests
  show (match cb.config.slidingWindowType with
    | SlidingWindowType.COUNT_BASED => enforceCountBasedWindow (setSlidingWindowTime v cb)
    | SlidingWindowType.TIME_BASED => enforceTimeBasedWindow now (setSlidingWindowTime v cb)) = _
  rcases ht : cb.config.slidingWindowType
  · show enforceCountBasedWindow (setSlidingWindowTime v cb) = _
    unfold enforceCountBasedWindow
    rw [setSWT_requests]
    exact enforceCountBasedWindowFuel_swt cb.requests.length v cb
  · show enforceTimeBasedWindow now (setSlidingWindowTime v cb) = _
    unfold enforceTimeBasedWindow
    rw [setSWT_requests]
    exact enforceTimeBasedWindowFuel_swt now cb.requests.length v cb

theorem addRequest_swt (now : Int) (e s : Bool) (v : Int) (cb : CircuitBreaker) :
    addRequest now e s (setSlidingWindowTime v cb) =
      setSlidingWindowTime v (addRequest now e s cb) := by
  unfold addRequest
  rw [cleanupOldRequests_swt]
  by_cases hf : e <;> by_cases hs : s <;>
    simp [hf, hs, setSlidingWindowTime]

theorem admitCall_swt (now : Int) (v : Int) (cb : CircuitBreaker) :
    admitCall now (setSlidingWindowTime v cb) =
      ((admitCall now cb).1, setSlidingWindowTime v (admitCall now cb).2) := by
  rcases hst : cb.state
  · rw [admitCall_closed now cb hst, admitCall_closed now (setSlidingWindowTime v cb) hst]
  · by_cases hw : cb.config.waitDurationInOpenState ≤ now - cb.lastFailureTime
    · by_cases hp : 1 ≤ cb.config.permittedNumberOfCallsInHalfOpenState
      · rw [admitCall_open_elapsed_pos now cb hst hw hp,
          admitCall_open_elapsed_pos now (setSlidingWindowTime v cb) hst hw hp]
        rfl
      · rw [admitCall_open_elapsed_zero now cb hst hw (by omega),
          admitCall_open_elapsed_zero now (setSlidingWindowTime v cb) hst hw
            (by simp only [setSWT_permitted]; omega)]
        rfl
    · rw [admitCall_open_cooling now cb hst (by omega),
        admitCall_open_cooling now (setSlidingWindowTime v cb) hst
          (by simp only [setSWT_lastFailureTime, setSWT_waitDurationInOpenState]; omega)]
  · by_cases hq : cb.config.permittedNumberOfCallsInHalfOpenState ≤ cb.halfOpenCalls
    · rw [admitCall_halfOpen_full now cb hst hq,
        admitCall_halfOpen_full now (setSlidingWindowTime v cb) hst hq]
    · rw [admitCall_halfOpen_quota now cb hst (by omega),
        admitCall_halfOpen_quota now (setSlidingWindowTime v cb) hst
          (by simp only [setSWT_halfOpenCalls, setSWT_permitted]; omega)]
      rfl

theorem recordResult_swt (now : Int) (e s : Bool) (v : Int) (cb : CircuitBreaker) :
    recordResult now e s (setSlidingWindowTime v cb) =
      setSlidingWindowTime v (recordResult now e s cb) := by
  rcases hst : cb.state
  · rw [recordResult_of_closed now e s cb hst,
      recordResult_of_closed now e s (setSlidingWindowTime v cb) hst,
      addRequest_swt now e s v cb]
    simp only [setSWT_minimumNumberOfCalls, setSWT_requests, setSWT_failureRateThreshold,
      setSWT_slowCallRateThreshold, getFailureRate_swt, getSlowCallRate_swt]
    split <;> rfl
  · rw [recordResult_of_open now e s cb hst,
      recordResult_of_open now e s (setSlidingWindowTime v cb) hst,
      addRequest_swt now e s v cb]
    show (if cb.config.waitDurationInOpenState ≤ now - cb.lastFailureTime then _ else _) = _
    split <;> rfl
  · rw [recordResult_of_halfOpen now e s cb hst,
      recordResult_of_halfOpen now e s (setSlidingWindowTime v cb) hst,
      addRequest_swt now e s v cb]
    simp only [setSWT_permitted, setSWT_halfOpenCalls]
    split
    · rfl
    · split <;> rfl

theorem Execute_swt {ε : Type} (now : Int) (a : Unit → Option ε × Int) (v : Int)
    (cb : CircuitBreaker) :
    Execute now a (setSlidingWindowTime v cb) =
      ((Execute now a cb).1, setSlidingWindowTime v (Execute now a cb).2) := by
  rw [Execute_of_admitCall, Execute_of_admitCall, admitCall_swt now v cb]
  rcases hac : admitCall now cb with ⟨d, cb1⟩
  rcases d
  · simp only
    rw [setSWT_slowCallDurationThreshold, recordResult_swt]
  · rfl
  · rfl

/-- C10: for a time-based window the pruning horizon is now minus
SlidingWindowSize read as a nanosecond duration (the Go conversion
time.Duration(SlidingWindowSize)); and the SlidingWindowTime field
declared by the alternate Config is never read: overwriting it with any
value commutes with Execute, so it has no effect on any behaviour. -/
theorem time_horizon_and_unused_field :
    (∀ (now : Int) (cb : CircuitBreaker),
      cb.config.slidingWindowType = SlidingWindowType.TIME_BASED →
      (cleanupOldRequests now cb).requests =
        cb.requests.dropWhile
          (fun e => decide (e.executionTime < now - (cb.config.slidingWindowSize : Int)))) ∧
    (∀ (ε : Type) (now : Int) (a : Unit → Option ε × Int) (v : Int) (cb : CircuitBreaker),
      Execute now a (setSlidingWindowTime v cb) =
        ((Execute now a cb).1, setSlidingWindowTime v (Execute now a cb).2)) := by
  constructor
  · intro now cb ht
    unfold cleanupOldRequests
    rw [ht]
    exact enforceTimeBasedWindow_requests now cb
  · intro ε now a v cb
    exact Execute_swt now a v cb

/-- A concrete instance of C10: pruning the sample time-based breaker at
instant 10 uses the horizon 10 − 10, and flipping slidingWindowTime to 7
changes nothing observable about a probe call. -/
theorem time_horizon_and_unused_field_witness :
    ((cleanupOldRequests 10 sampleTimeCb).requests =
      sampleTimeCb.requests.dropWhile
        (fun e => decide (e.executionTime < 10 - (sampleTimeCb.config.slidingWindowSize : Int)))) ∧
    (Execute 0 probeNone (setSlidingWindowTime 7 sampleTimeCb) =
      ((Execute 0 probeNone sampleTimeCb).1,
       setSlidingWindowTime 7 (Execute 0 probeNone sampleTimeCb).2)) :=
  ⟨time_horizon_and_unused_field.1 10 sampleTimeCb rfl,
   time_horizon_and_unused_field.2 Unit 0 probeNone 7 sampleTimeCb⟩

end GoBreaker
